import Mathlib

/-!
Verification of the gotstate-rs HSM runtime core against its design
specification.

Shallow embedding of:
- `hsm/runtime/async_support.py`: `AsyncEventQueue` (FIFO queue with a
  recorded-but-unused priority flag) and `AsyncStateMachine.process_event`
  (guarded transition selection, hook/exit/action/enter sequencing, and the
  catch-all error boundary).
- `hsm/core/guards.py`: `ConditionGuard.check` with the
  `GuardEvaluationError` wrapping performed by `GuardBase._raise_guard_error`.
- The timer scheduling-state validation, which is exercised by
  `hsm/tests/unit/test_timers.py` (the `Timer` implementation file itself is
  not part of the sources; the model follows the spec except where the test
  suite pins concrete behavior).

Side effects are made observable: each effectful step of `process_event`
(guard evaluation, hook dispatch, state enter/exit behavior, action
execution, cursor mutation, error-hook dispatch) is recorded in a trace, and
user-supplied code (guards, actions, hooks, enter/exit behaviors) is modelled
by outcome functions saying whether the call raises a Python exception.
-/

namespace Hsm

/-- An event (`hsm.core.events.Event`, modelled from the spec: immutable value
carrying an identifier, payload, and priority). -/
structure Event where
  event_id : String
  payload : String
  priority : Int
deriving DecidableEq

/-- A state (`hsm.core.states.State`): identity plus on-enter/on-exit
behaviors. The behaviors are modelled by flags saying whether `on_exit` /
`on_enter` raises when the machine runs it. -/
structure State where
  name : String
  exitRaises : Bool
  enterRaises : Bool
deriving DecidableEq

/-- Outcome of evaluating one guard of a transition against an event:
the guard returns `True`, returns `False`, or raises an exception. -/
inductive GuardRes where
  | pass
  | fail
  | raise
deriving DecidableEq

/-- A transition (`hsm.core.transitions.Transition`): source state, target
state, ordered guards, actions, integer priority. Guards are modelled as
functions from the event to a `GuardRes`; the actions of the transition are
modelled by a function saying whether `execute_actions(event)` raises. -/
structure Transition where
  source : State
  target : State
  priority : Int
  guards : List (Event → GuardRes)
  actionRaises : Event → Bool

/-- The hook fan-out (`hsm.core.hooks.HookManager`). Modelled from the spec:
a fan-out dispatcher for enter/exit/error observer callbacks. The flags say
whether `execute_on_exit` / `execute_on_enter` raises for a given state name;
per the spec's propagation policy (errors are surfaced only through the
error-hook channel and never crash the caller) the error-channel dispatch
`execute_on_error` is modelled as non-raising. -/
structure HookSet where
  exitRaises : String → Bool
  enterRaises : String → Bool

/-- One observable step performed inside `process_event`. -/
inductive Step where
  | evalGuards (src tgt : String)
  | hookExit (s : String)
  | onExit (s : String)
  | actions
  | setCurrent (s : String)
  | onEnter (s : String)
  | hookEnter (s : String)
  | hookError
deriving DecidableEq

/-- The async state machine (`AsyncStateMachine` plus its
`_StateMachineContext`): current-state cursor, transition table in
registration order, hooks, and the started/stopped flags. -/
structure Machine where
  current : State
  transitions : List Transition
  hooks : HookSet
  started : Bool
  stopped : Bool

/-- `AsyncStateMachine.add_transition`: appends to the transition table
(registration order is list order). -/
def add_transition (m : Machine) (t : Transition) : Machine :=
  { m with transitions := m.transitions ++ [t] }

/-- `Transition.evaluate_guards(event)` (modelled from the spec: evaluate the
guard sequence in order; all guards must pass). A guard returning `False`
makes the result `False`; a guard raising propagates the exception (modelled
as `Except.error`). -/
def evaluate_guards (gs : List (Event → GuardRes)) (e : Event) : Except Unit Bool :=
  match gs with
  | [] => Except.ok true
  | g :: rest =>
    match g e with
    | GuardRes.pass => evaluate_guards rest e
    | GuardRes.fail => Except.ok false
    | GuardRes.raise => Except.error ()

/-- The list comprehension of `process_event` (async_support.py line 125):
`[t for t in transitions if t.source == self.current_state and
t.evaluate_guards(event)]`. Returns the trace of guard evaluations performed
and either the filtered list or the exception that aborted the comprehension.
Guard evaluation is short-circuited: it only runs for transitions whose
source matches, and an exception aborts the whole comprehension. -/
def filterValid (ts : List Transition) (cur : State) (e : Event) :
    List Step × Except Unit (List Transition) :=
  match ts with
  | [] => ([], Except.ok [])
  | t :: rest =>
    if t.source = cur then
      match evaluate_guards t.guards e with
      | Except.error _ => ([Step.evalGuards t.source.name t.target.name], Except.error ())
      | Except.ok b =>
        let r := filterValid rest cur e
        (Step.evalGuards t.source.name t.target.name :: r.1,
          match r.2 with
          | Except.error _ => Except.error ()
          | Except.ok vs => Except.ok (if b then t :: vs else vs))
    else
      filterValid rest cur e

/-- Stable insertion of a transition into a list sorted by descending
priority: the inserted element goes in front of the first element whose
priority is not greater than its own. -/
def insertDesc (t : Transition) : List Transition → List Transition
  | [] => [t]
  | u :: us => if u.priority ≤ t.priority then t :: u :: us else u :: insertDesc t us

/-- `sorted(valid_transitions, key=lambda t: t.get_priority(), reverse=True)`
(async_support.py line 128). Python's `sorted` is documented stable, and
`reverse=True` reverses the key comparison while keeping equal-key elements
in their original order; a stable sort is uniquely determined by the key
order, so this stable descending insertion sort computes the same list. -/
def sortDesc : List Transition → List Transition
  | [] => []
  | t :: ts => insertDesc t (sortDesc ts)

/-- The transition `process_event` chooses for an event, `none` when the
comprehension raised or no transition matched:
`sorted(valid_transitions, key=..., reverse=True)[0]`. -/
def chosenTransition (m : Machine) (e : Event) : Option Transition :=
  match (filterValid m.transitions m.current e).2 with
  | Except.error _ => none
  | Except.ok vs => (sortDesc vs).head?

/-- Result of running the body of the `try` block of `process_event`:
the machine state when the block finished or raised, the trace of steps
performed, and whether an exception was raised. -/
structure RunResult where
  machine : Machine
  trace : List Step
  raised : Bool

/-- The `try`-block body of `process_event` (async_support.py lines 124-134).
Each effectful call is appended to the trace when it is invoked; if it
raises, execution stops there with `raised := true` and the machine exactly
as the partial execution left it (in particular the cursor has moved only if
`set_current_state` was already reached). -/
def processEventRun (m : Machine) (e : Event) : RunResult :=
  let f := filterValid m.transitions m.current e
  match f.2 with
  | Except.error _ => ⟨m, f.1, true⟩
  | Except.ok valids =>
    match (sortDesc valids).head? with
    | none => ⟨m, f.1, false⟩
    | some t =>
      let src := m.current
      let tr1 := f.1 ++ [Step.hookExit src.name]
      if m.hooks.exitRaises src.name then ⟨m, tr1, true⟩
      else
        let tr2 := tr1 ++ [Step.onExit src.name]
        if src.exitRaises then ⟨m, tr2, true⟩
        else
          let tr3 := tr2 ++ [Step.actions]
          if t.actionRaises e then ⟨m, tr3, true⟩
          else
            let m2 := { m with current := t.target }
            let tr4 := tr3 ++ [Step.setCurrent t.target.name, Step.onEnter t.target.name]
            if t.target.enterRaises then ⟨m2, tr4, true⟩
            else
              let tr5 := tr4 ++ [Step.hookEnter t.target.name]
              if m.hooks.enterRaises t.target.name then ⟨m2, tr5, true⟩
              else ⟨m2, tr5, false⟩

/-- `AsyncStateMachine.process_event` (async_support.py lines 119-138):
the early no-op return when the machine is not started or already stopped,
then the `try` body, with `except Exception` routing any raised exception to
`self._hooks.execute_on_error` (recorded as `Step.hookError`). The function
is total: the caller never sees an exception. -/
def process_event (m : Machine) (e : Event) : Machine × List Step :=
  if !m.started || m.stopped then (m, [])
  else
    let r := processEventRun m e
    if r.raised then (r.machine, r.trace ++ [Step.hookError]) else (r.machine, r.trace)

/-- The result of `process_event` as seen on the caller's exception channel:
`Except.error` would mean an exception escaped the machine boundary. The
`except Exception` handler at lines 135-136 converts every exception raised
in the body into an error-hook dispatch, so the caller-visible result is the
normal return of the handled computation. -/
def process_event_toCaller (m : Machine) (e : Event) : Except Unit (Machine × List Step) :=
  Except.ok (process_event m e)

/-! ### AsyncEventQueue (async_support.py lines 34-83) -/

/-- `AsyncEventQueue`: the `priority` constructor flag is recorded in
`_priority_mode`, but the backing store is a plain FIFO `asyncio.Queue`
regardless ("we ignore priority in the async variant and just use FIFO"). -/
structure AsyncEventQueue where
  priority_mode : Bool
  queue : List Event
deriving DecidableEq

/-- `AsyncEventQueue.__init__(priority)`: records the flag, starts empty. -/
def mkQueue (priority : Bool) : AsyncEventQueue :=
  ⟨priority, []⟩

/-- `AsyncEventQueue.enqueue`: `asyncio.Queue.put`, appends at the back. -/
def AsyncEventQueue.enqueue (q : AsyncEventQueue) (e : Event) : AsyncEventQueue :=
  { q with queue := q.queue ++ [e] }

/-- `AsyncEventQueue.dequeue`: `asyncio.wait_for(self._queue.get(), timeout=0.1)`.
With data available it returns the front element; with no data available the
bounded wait times out and the `except asyncio.TimeoutError` branch returns
`None`, leaving the queue untouched. -/
def AsyncEventQueue.dequeue (q : AsyncEventQueue) : Option Event × AsyncEventQueue :=
  match q.queue with
  | [] => (none, q)
  | e :: rest => (some e, { q with queue := rest })

/-- `AsyncEventQueue.clear`: drains the queue. -/
def AsyncEventQueue.clear (q : AsyncEventQueue) : AsyncEventQueue :=
  { q with queue := [] }

/-- Enqueue a list of events in order. -/
def enqueueAll (q : AsyncEventQueue) (es : List Event) : AsyncEventQueue :=
  es.foldl AsyncEventQueue.enqueue q

/-- Perform `n` successive dequeues, collecting each call's result. -/
def dequeueSeq (q : AsyncEventQueue) : Nat → List (Option Event)
  | 0 => []
  | n + 1 => (q.dequeue).1 :: dequeueSeq (q.dequeue).2 n

/-- A queue operation: enqueue an event, or dequeue once. -/
inductive QOp where
  | enq (e : Event)
  | deq
deriving DecidableEq

/-- Run a sequence of queue operations, collecting every dequeue result in
order together with the final queue. -/
def runOps (q : AsyncEventQueue) : List QOp → List (Option Event) × AsyncEventQueue
  | [] => ([], q)
  | QOp.enq e :: ops => runOps (q.enqueue e) ops
  | QOp.deq :: ops =>
    let r := q.dequeue
    let rest := runOps r.2 ops
    (r.1 :: rest.1, rest.2)

/-! ### ConditionGuard (hsm/core/guards.py) -/

/-- Guard state data (`state_data: Any`), modelled opaquely as a string. -/
abbrev StateData := String

/-- A Python exception value as relevant to guard evaluation: either an
arbitrary user exception (class name and message) or a
`GuardEvaluationError(message, guard_name, state_data, event)`; the latter
carries the `__cause__` installed by `raise error from cause` when
`GuardBase._raise_guard_error` was given a cause. -/
inductive Exc where
  | user (excName msg : String)
  | guardEvalNoCause (msg guard_name : String) (state_data : StateData) (event : Event)
  | guardEvalCause (msg guard_name : String) (state_data : StateData) (event : Event)
      (cause : Exc)
deriving DecidableEq

/-- `str(e)` for the modelled exceptions: the message. -/
def excStr : Exc → String
  | Exc.user _ msg => msg
  | Exc.guardEvalNoCause msg _ _ _ => msg
  | Exc.guardEvalCause msg _ _ _ _ => msg

/-- Outcome of calling the user-supplied `condition(state_data)`:
it returns a boolean or raises an exception. -/
inductive CondResult where
  | ret (b : Bool)
  | raise (e : Exc)

/-- `ConditionGuard.check(event, state_data)` (guards.py lines 143-150).
Inside the `try` block, a `False` condition calls `_raise_guard_error
("Condition failed", ...)` with no cause; that raised `GuardEvaluationError`
is itself caught by the `except Exception` clause and re-wrapped, so the
observable error for a `False` condition also carries a cause (the inner
error). A condition that raises is caught and re-surfaced via
`_raise_guard_error(f"Condition evaluation error: {e}", state_data, event, e)`,
which builds `GuardEvaluationError(message, "ConditionGuard", state_data,
event)` and raises it `from e`. -/
def ConditionGuard.check (condition : StateData → CondResult) (event : Event)
    (state_data : StateData) : Except Exc Bool :=
  match condition state_data with
  | CondResult.ret true => Except.ok true
  | CondResult.ret false =>
    let inner := Exc.guardEvalNoCause "Condition failed" "ConditionGuard" state_data event
    Except.error (Exc.guardEvalCause ("Condition evaluation error: " ++ excStr inner)
      "ConditionGuard" state_data event inner)
  | CondResult.raise e =>
    Except.error (Exc.guardEvalCause ("Condition evaluation error: " ++ excStr e)
      "ConditionGuard" state_data event e)

/-! ### Timer scheduling-state validation -/

/-- The timer lifecycle states (spec section 4.3). The constructor for the
ERROR state is named `errored` because `error` reads badly next to
`Except.error`; it models `TimerState.ERROR`. -/
inductive TimerState where
  | idle
  | running
  | cancelled
  | completed
  | errored
deriving DecidableEq

/-- Errors raised by timer operations: `TimerValidationError` for a negative
duration, `TimerSchedulingError` for scheduling in an invalid state. -/
inductive TimerErr where
  | validationError
  | schedulingError
deriving DecidableEq

/-- A timer as relevant to scheduling validation: its lifecycle state, the
id of the armed event, and the armed duration (durations scaled to integers;
only the sign matters for validation). -/
structure Timer where
  state : TimerState
  armed_id : Option String
  duration : Option Int
deriving DecidableEq

/-- Modelled from the spec: `Timer.schedule_timeout(duration, event)` — the
implementation file is not among the sources. Per the spec it fails with a
validation error on a negative duration and a scheduling-conflict error when
already RUNNING, and otherwise arms the event and moves to RUNNING. For the
ERROR state the spec and the repository's own test disagree: the test
`test_timer_validate_schedule_state` (hsm/tests/unit/test_timers.py lines
646-649) forces `timer._state = TimerState.ERROR` and asserts that
`schedule_timeout` raises `TimerSchedulingError`; the model follows the
test, so ERROR is also rejected. -/
def schedule_timeout (t : Timer) (duration : Int) (e : Event) : Except TimerErr Timer :=
  if duration < 0 then Except.error TimerErr.validationError
  else
    match t.state with
    | TimerState.running => Except.error TimerErr.schedulingError
    | TimerState.errored => Except.error TimerErr.schedulingError
    | _ => Except.ok { state := TimerState.running, armed_id := some e.event_id,
                       duration := some duration }

/-- Modelled from the spec: `Timer.shutdown()` — unconditionally forces the
timer to IDLE and clears all scheduling fields, regardless of prior state
(including ERROR; confirmed by `test_timer_cleanup_after_error`). -/
def Timer.shutdown (_t : Timer) : Timer :=
  { state := TimerState.idle, armed_id := none, duration := none }

/-- Modelled from the spec: `Timer.cancel_timeout(event_id)` — if RUNNING
and the armed event's id matches, clear the deadline and move to CANCELLED;
otherwise a no-op (confirmed by `test_timer_cancel_with_wrong_event`). -/
def cancel_timeout (t : Timer) (event_id : String) : Timer :=
  if t.state = TimerState.running ∧ t.armed_id = some event_id then
    { state := TimerState.cancelled, armed_id := none, duration := none }
  else t

/-! ### Concrete fixtures -/

/-- A state named A with benign enter/exit behavior. -/
def stateA : State := ⟨"A", false, false⟩

/-- A state named B with benign enter/exit behavior. -/
def stateB : State := ⟨"B", false, false⟩

/-- A state named C with benign enter/exit behavior. -/
def stateC : State := ⟨"C", false, false⟩

/-- Hooks that never raise. -/
def noHooks : HookSet := ⟨fun _ => false, fun _ => false⟩

/-- A sample event. -/
def evGo : Event := ⟨"go", "", 0⟩

/-- A guard that always passes. -/
def alwaysPass : Event → GuardRes := fun _ => GuardRes.pass

/-- Transition A → B, always-true guard, priority 0, benign actions. -/
def tAB : Transition := ⟨stateA, stateB, 0, [alwaysPass], fun _ => false⟩

/-- A started machine currently in A with the single transition A → B. -/
def mAB : Machine := ⟨stateA, [tAB], noHooks, true, false⟩

/-- A machine that was never started. -/
def mUnstarted : Machine := ⟨stateA, [tAB], noHooks, false, false⟩

/-- Transition A → B with priority 5 (registered first in `mTie`). -/
def tAB5 : Transition := ⟨stateA, stateB, 5, [alwaysPass], fun _ => false⟩

/-- Transition A → C with priority 5 (registered second in `mTie`). -/
def tAC5 : Transition := ⟨stateA, stateC, 5, [alwaysPass], fun _ => false⟩

/-- A started machine with two matching transitions of equal priority. -/
def mTie : Machine := ⟨stateA, [tAB5, tAC5], noHooks, true, false⟩

/-- Transition A → B whose actions raise. -/
def tABraise : Transition := ⟨stateA, stateB, 0, [alwaysPass], fun _ => true⟩

/-- A started machine whose only matching transition has raising actions. -/
def mActionRaise : Machine := ⟨stateA, [tABraise], noHooks, true, false⟩

/-- Transition A → B whose guard raises. -/
def tABguardRaise : Transition := ⟨stateA, stateB, 0, [fun _ => GuardRes.raise], fun _ => false⟩

/-- A started machine whose only transition has a raising guard. -/
def mGuardRaise : Machine := ⟨stateA, [tABguardRaise], noHooks, true, false⟩

/-- A timer that sits in the ERROR state after its callback raised. -/
def errTimer : Timer := ⟨TimerState.errored, none, none⟩

/-! ### Helper lemmas -/

theorem enqueueAll_queue (es : List Event) (q : AsyncEventQueue) :
    (enqueueAll q es).queue = q.queue ++ es := by
  induction es generalizing q with
  | nil => simp [enqueueAll]
  | cons e es ih =>
    show (enqueueAll (q.enqueue e) es).queue = q.queue ++ (e :: es)
    rw [ih]
    simp [AsyncEventQueue.enqueue]

theorem enqueueAll_priority_mode (es : List Event) (q : AsyncEventQueue) :
    (enqueueAll q es).priority_mode = q.priority_mode := by
  induction es generalizing q with
  | nil => rfl
  | cons e es ih =>
    show (enqueueAll (q.enqueue e) es).priority_mode = q.priority_mode
    rw [ih]
    rfl

theorem dequeueSeq_of_queue (es : List Event) (q : AsyncEventQueue)
    (h : q.queue = es) : dequeueSeq q es.length = es.map some := by
  induction es generalizing q with
  | nil => rfl
  | cons e es ih =>
    show (q.dequeue).1 :: dequeueSeq (q.dequeue).2 es.length = some e :: es.map some
    have hd : q.dequeue = (some e, { q with queue := es }) := by
      simp [AsyncEventQueue.dequeue, h]
    rw [hd]
    exact congrArg _ (ih _ rfl)

theorem runOps_queue_congr (ops : List QOp) (q q2 : AsyncEventQueue)
    (h : q.queue = q2.queue) :
    (runOps q ops).1 = (runOps q2 ops).1 ∧
    (runOps q ops).2.queue = (runOps q2 ops).2.queue := by
  induction ops generalizing q q2 with
  | nil => exact ⟨rfl, h⟩
  | cons op ops ih =>
    cases op with
    | enq e =>
      exact ih (q.enqueue e) (q2.enqueue e) (by simp [AsyncEventQueue.enqueue, h])
    | deq =>
      cases hq : q.queue with
      | nil =>
        have hd1 : q.dequeue = (none, q) := by simp [AsyncEventQueue.dequeue, hq]
        have hd2 : q2.dequeue = (none, q2) := by
          simp [AsyncEventQueue.dequeue, h ▸ hq]
        obtain ⟨ha, hb⟩ := ih q q2 h
        simp [runOps, hd1, hd2, ha, hb]
      | cons e rest =>
        have hd1 : q.dequeue = (some e, { q with queue := rest }) := by
          simp [AsyncEventQueue.dequeue, hq]
        have hd2 : q2.dequeue = (some e, { q2 with queue := rest }) := by
          simp [AsyncEventQueue.dequeue, h ▸ hq]
        obtain ⟨ha, hb⟩ := ih { q with queue := rest } { q2 with queue := rest } rfl
        simp [runOps, hd1, hd2, ha, hb]

theorem sortDesc_head_firstMax (l : List Transition) (hne : l ≠ []) :
    ∃ c, (sortDesc l).head? = some c ∧ c ∈ l ∧ (∀ u ∈ l, u.priority ≤ c.priority) ∧
      ∃ pre post, l = pre ++ c :: post ∧ ∀ u ∈ pre, u.priority < c.priority := by
  induction l with
  | nil => exact absurd rfl hne
  | cons t ts ih =>
    by_cases hts : ts = []
    · subst hts
      refine ⟨t, rfl, List.mem_singleton.mpr rfl, ?_, [], [], rfl, ?_⟩
      · intro u hu
        rw [List.mem_singleton.mp hu]
      · intro u hu
        exact absurd hu (List.not_mem_nil u)
    · obtain ⟨c, h1, h2, h3, pre, post, h4, h5⟩ := ih hts
      cases hsd : sortDesc ts with
      | nil => rw [hsd] at h1; simp at h1
      | cons a rest =>
        rw [hsd] at h1
        simp only [List.head?_cons, Option.some.injEq] at h1
        subst h1
        by_cases hp : a.priority ≤ t.priority
        · refine ⟨t, ?_, List.mem_cons_self t ts, ?_, [], ts, rfl, ?_⟩
          · show (insertDesc t (sortDesc ts)).head? = some t
            rw [hsd]
            simp [insertDesc, hp]
          · intro u hu
            rcases List.mem_cons.mp hu with h | h
            · rw [h]
            · exact le_trans (h3 u h) hp
          · intro u hu
            exact absurd hu (List.not_mem_nil u)
        · have hlt : t.priority < a.priority := lt_of_not_le hp
          refine ⟨a, ?_, List.mem_cons_of_mem t h2, ?_, t :: pre, post, ?_, ?_⟩
          · show (insertDesc t (sortDesc ts)).head? = some a
            rw [hsd]
            simp [insertDesc, hp]
          · intro u hu
            rcases List.mem_cons.mp hu with h | h
            · rw [h]; exact le_of_lt hlt
            · exact h3 u h
          · rw [h4]; rfl
          · intro u hu
            rcases List.mem_cons.mp hu with h | h
            · rw [h]; exact hlt
            · exact h5 u h

/-! ### Claim theorems -/

/-- Claim C7: the async event queue is FIFO: after enqueueing the events
`es` in order into a fresh queue, the i-th successful dequeue yields the
i-th enqueued event. -/
theorem asyncEventQueue_fifo_order (priority : Bool) (es : List Event) :
    dequeueSeq (enqueueAll (mkQueue priority) es) es.length = es.map some :=
  dequeueSeq_of_queue es _ (by rw [enqueueAll_queue]; rfl)

/-- Claim C8: dequeuing from an empty async event queue returns `none`
(the bounded `asyncio.wait_for` wait times out) and leaves the queue
unchanged. -/
theorem dequeue_empty_returns_none (q : AsyncEventQueue) (h : q.queue = []) :
    q.dequeue = (none, q) := by
  simp [AsyncEventQueue.dequeue, h]

/-- Witness for C8: a fresh queue is empty and its dequeue returns `none`. -/
theorem dequeue_empty_returns_none_witness :
    (mkQueue false).queue = [] ∧ (mkQueue false).dequeue = (none, mkQueue false) :=
  ⟨rfl, dequeue_empty_returns_none (mkQueue false) rfl⟩

/-- Claim C10: a queue constructed with `priority=True` processes any
sequence of enqueue/dequeue operations exactly like one constructed with
`priority=False`: the same dequeue results in the same order, and the same
final contents — the flag is recorded but has no effect on ordering. -/
theorem asyncEventQueue_priority_flag_no_effect (ops : List QOp) :
    (runOps (mkQueue true) ops).1 = (runOps (mkQueue false) ops).1 ∧
    (runOps (mkQueue true) ops).2.queue = (runOps (mkQueue false) ops).2.queue :=
  runOps_queue_congr ops (mkQueue true) (mkQueue false) rfl

/-- Claim C9: if the machine has not been started or has already been
stopped, `process_event` is a no-op: it returns the machine unchanged with
an empty trace, so no guard was evaluated and no hook was dispatched. -/
theorem process_event_not_started_noop (m : Machine) (e : Event)
    (h : m.started = false ∨ m.stopped = true) :
    process_event m e = (m, []) := by
  rcases h with h | h <;> simp [process_event, h]

/-- Witness for C9 at a machine that was never started. -/
theorem process_event_not_started_noop_witness :
    mUnstarted.started = false ∧ process_event mUnstarted evGo = (mUnstarted, []) :=
  ⟨rfl, process_event_not_started_noop mUnstarted evGo (Or.inl rfl)⟩

/-- Claim C5: if the user-supplied condition raises any exception `e`, then
`ConditionGuard.check` raises a classified `GuardEvaluationError` carrying
the guard's name, the offending state data, the event, and `e` preserved as
its cause. -/
theorem conditionGuard_check_wraps_raised_exception
    (condition : StateData → CondResult) (event : Event) (state_data : StateData)
    (e : Exc) (h : condition state_data = CondResult.raise e) :
    ConditionGuard.check condition event state_data =
      Except.error (Exc.guardEvalCause ("Condition evaluation error: " ++ excStr e)
        "ConditionGuard" state_data event e) := by
  simp [ConditionGuard.check, h]

/-- Witness for C5 with a condition that raises a RuntimeError. -/
theorem conditionGuard_check_wraps_raised_exception_witness :
    ConditionGuard.check (fun _ => CondResult.raise (Exc.user "RuntimeError" "boom"))
        evGo "sd" =
      Except.error (Exc.guardEvalCause
        ("Condition evaluation error: " ++ excStr (Exc.user "RuntimeError" "boom"))
        "ConditionGuard" "sd" evGo (Exc.user "RuntimeError" "boom")) :=
  conditionGuard_check_wraps_raised_exception _ evGo "sd" _ rfl

/-- Claim C6 counterexample: a timer in the ERROR state, given the
non-negative duration 1, does not move to RUNNING — `schedule_timeout`
fails with a `TimerSchedulingError`, exactly as the repository's test
`test_timer_validate_schedule_state` asserts. -/
theorem schedule_timeout_from_error_cex :
    (0 : Int) ≤ 1 ∧ errTimer.state = TimerState.errored ∧
    schedule_timeout errTimer 1 evGo = Except.error TimerErr.schedulingError :=
  ⟨by decide, rfl, rfl⟩

/-- Claim C6 (amended): for a timer in the ERROR state, `schedule_timeout`
with a non-negative duration fails with a `TimerSchedulingError` — ERROR is
terminal for direct rescheduling — and after `shutdown` resets the timer to
IDLE, the same `schedule_timeout` call succeeds and moves it to RUNNING. -/
theorem schedule_timeout_error_requires_shutdown (t : Timer) (d : Int) (e : Event)
    (hs : t.state = TimerState.errored) (hd : 0 ≤ d) :
    schedule_timeout t d e = Except.error TimerErr.schedulingError ∧
    schedule_timeout (t.shutdown) d e =
      Except.ok { state := TimerState.running, armed_id := some e.event_id,
                  duration := some d } := by
  constructor
  · rw [schedule_timeout, if_neg (not_lt.mpr hd), hs]
  · rw [Timer.shutdown, schedule_timeout, if_neg (not_lt.mpr hd)]

/-- Witness for the amended C6 at a concrete errored timer. -/
theorem schedule_timeout_error_requires_shutdown_witness :
    errTimer.state = TimerState.errored ∧ (0 : Int) ≤ 1 ∧
    (schedule_timeout errTimer 1 evGo = Except.error TimerErr.schedulingError ∧
     schedule_timeout (errTimer.shutdown) 1 evGo =
       Except.ok { state := TimerState.running, armed_id := some evGo.event_id,
                   duration := some 1 }) :=
  ⟨rfl, by decide, schedule_timeout_error_requires_shutdown errTimer 1 evGo rfl (by decide)⟩

/-- Claim C1: when the guard-filtered valid-transition list `vs` has more
than one element, `process_event` chooses a member of `vs` with the maximum
declared priority, and it is the earliest-registered one among those sharing
that maximum: every transition before it in `vs` (hence registered earlier,
since `filterValid` preserves the registration order of the table built by
`add_transition`) has strictly smaller priority. The choice is a function of
the list, hence deterministic for a given registration order. -/
theorem process_event_selects_highest_priority_earliest
    (m : Machine) (e : Event) (vs : List Transition)
    (hv : (filterValid m.transitions m.current e).2 = Except.ok vs)
    (hlen : 1 < vs.length) :
    ∃ c, chosenTransition m e = some c ∧ c ∈ vs ∧
      (∀ u ∈ vs, u.priority ≤ c.priority) ∧
      ∃ pre post, vs = pre ++ c :: post ∧ ∀ u ∈ pre, u.priority < c.priority := by
  have hne : vs ≠ [] := by
    intro h
    rw [h] at hlen
    simp at hlen
  obtain ⟨c, h1, h2, h3, h4⟩ := sortDesc_head_firstMax vs hne
  refine ⟨c, ?_, h2, h3, h4⟩
  simp [chosenTransition, hv, h1]

/-- Witness for C1: two guard-passing transitions of equal priority. -/
theorem process_event_selects_highest_priority_earliest_witness :
    ∃ c, chosenTransition mTie evGo = some c ∧ c ∈ [tAB5, tAC5] ∧
      (∀ u ∈ [tAB5, tAC5], u.priority ≤ c.priority) ∧
      ∃ pre post, [tAB5, tAC5] = pre ++ c :: post ∧
        ∀ u ∈ pre, u.priority < c.priority :=
  process_event_selects_highest_priority_earliest mTie evGo [tAB5, tAC5] rfl
    (by decide)

/-- Claim C2: on a started machine with a chosen transition, if an exception
is raised during the on-exit hook, the source state's exit behavior, or the
transition's actions — the steps before the cursor mutation — then
`process_event` leaves the current state unchanged. -/
theorem process_event_failure_before_cursor_preserves_state
    (m : Machine) (e : Event) (t : Transition)
    (h1 : m.started = true) (h2 : m.stopped = false)
    (hc : chosenTransition m e = some t)
    (hr : m.hooks.exitRaises m.current.name = true ∨ m.current.exitRaises = true ∨
          t.actionRaises e = true) :
    (process_event m e).1.current = m.current := by
  cases hf : (filterValid m.transitions m.current e).2 with
  | error err => simp [chosenTransition, hf] at hc
  | ok vs =>
    simp only [chosenTransition, hf] at hc
    cases hb1 : m.hooks.exitRaises m.current.name with
    | true => simp [process_event, h1, h2, processEventRun, hf, hc, hb1]
    | false =>
      cases hb2 : m.current.exitRaises with
      | true => simp [process_event, h1, h2, processEventRun, hf, hc, hb1, hb2]
      | false =>
        cases hb3 : t.actionRaises e with
        | true => simp [process_event, h1, h2, processEventRun, hf, hc, hb1, hb2, hb3]
        | false =>
          rcases hr with h | h | h
          · rw [hb1] at h; exact absurd h (by simp)
          · rw [hb2] at h; exact absurd h (by simp)
          · rw [hb3] at h; exact absurd h (by simp)

/-- Witness for C2: the chosen transition's actions raise, and the machine
stays in its source state. -/
theorem process_event_failure_before_cursor_preserves_state_witness :
    (process_event mActionRaise evGo).1.current = mActionRaise.current :=
  process_event_failure_before_cursor_preserves_state mActionRaise evGo tABraise
    rfl rfl rfl (Or.inr (Or.inr rfl))

/-- Claim C3: on a started machine, `process_event` never propagates an
exception to its caller — the caller-visible result is always the normal
return of the handled computation — and whenever the `try`-block body raised
(in filtering, guard evaluation, exit/action/enter execution, or mutation),
the trace ends with the error-hook dispatch: the exception was delivered to
the `on_error` channel instead. -/
theorem process_event_no_uncaught_exception (m : Machine) (e : Event)
    (h1 : m.started = true) (h2 : m.stopped = false) :
    process_event_toCaller m e = Except.ok (process_event m e) ∧
    ((processEventRun m e).raised = true →
      (process_event m e).2.getLast? = some Step.hookError) := by
  refine ⟨rfl, fun hr => ?_⟩
  simp [process_event, h1, h2, hr]

/-- Witness for C3: a raising guard aborts the event; the caller sees a
normal return and the trace ends with the error-hook dispatch. -/
theorem process_event_no_uncaught_exception_witness :
    (processEventRun mGuardRaise evGo).raised = true ∧
    (process_event mGuardRaise evGo).2.getLast? = some Step.hookError ∧
    process_event_toCaller mGuardRaise evGo =
      Except.ok (process_event mGuardRaise evGo) :=
  ⟨rfl, (process_event_no_uncaught_exception mGuardRaise evGo rfl rfl).2 rfl,
    (process_event_no_uncaught_exception mGuardRaise evGo rfl rfl).1⟩

/-- Claim C4: when the chosen transition completes without an exception,
`process_event` performs, after the guard evaluations of the filtering pass,
exactly this sequence in this order: on-exit hook of the source, source exit
behavior, the transition's actions, cursor mutation to the target, target
enter behavior, on-enter hook of the target — in particular the source's
on-exit hook strictly precedes the target's on-enter hook — and the machine
ends in the target state. -/
theorem process_event_success_step_order
    (m : Machine) (e : Event) (t : Transition)
    (h1 : m.started = true) (h2 : m.stopped = false)
    (hc : chosenTransition m e = some t)
    (hx1 : m.hooks.exitRaises m.current.name = false)
    (hx2 : m.current.exitRaises = false)
    (hx3 : t.actionRaises e = false)
    (hx4 : t.target.enterRaises = false)
    (hx5 : m.hooks.enterRaises t.target.name = false) :
    process_event m e =
      ({ m with current := t.target },
       (filterValid m.transitions m.current e).1 ++
         [Step.hookExit m.current.name, Step.onExit m.current.name, Step.actions,
          Step.setCurrent t.target.name, Step.onEnter t.target.name,
          Step.hookEnter t.target.name]) := by
  cases hf : (filterValid m.transitions m.current e).2 with
  | error err => simp [chosenTransition, hf] at hc
  | ok vs =>
    simp only [chosenTransition, hf] at hc
    simp [process_event, h1, h2, processEventRun, hf, hc, hx1, hx2, hx3, hx4, hx5]

/-- Witness for C4: the spec scenario — states A and B, transition A → B
with an always-true guard and priority 0; processing an event moves the
machine to B and dispatches on_exit(A) strictly before on_enter(B). -/
theorem process_event_success_step_order_witness :
    process_event mAB evGo =
      ({ mAB with current := tAB.target },
       (filterValid mAB.transitions mAB.current evGo).1 ++
         [Step.hookExit mAB.current.name, Step.onExit mAB.current.name, Step.actions,
          Step.setCurrent tAB.target.name, Step.onEnter tAB.target.name,
          Step.hookEnter tAB.target.name]) :=
  process_event_success_step_order mAB evGo tAB rfl rfl rfl rfl rfl rfl rfl rfl

end Hsm
